import Mathlib

/-!
A shallow embedding of the crop-geometry engine of pdfCropMargins
(src/pdfCropMargins.py).  Boxes are rectangles in lbrt (left, bottom,
right, top) order with rational coordinates standing in for the Python
floats.  The embedding covers `intersectBoxes`, `getFullPageBox`,
`calculateCropList` (including the `--samePageSize`, `--evenodd`,
`--uniform`, `--uniformOrderStat` and `--uniformOrderPercent` handling,
with the mutation of the global `args` object made explicit by
state passing), `setCroppedMetadata`'s Producer-marker logic, and
`applyCropList` in both crop and restore mode, composed into whole-run
functions `cropRun` and `restoreRun` following `main`.
-/

/-- A PDF rectangle in the program's lbrt convention: indices 0..3 of the
Python 4-element lists become the fields left, bottom, right, top.  The
same shape is reused for the per-margin 4-tuples (`percentRetain`,
`absoluteOffset` and the delta lists), which the source also stores as
4-element lists in lbrt order. -/
structure Box where
  left : ℚ
  bottom : ℚ
  right : ℚ
  top : ℚ
deriving DecidableEq

/-- The all-zero box, used as the out-of-range fallback for list indexing
(Python raises IndexError there; theorems carry the length hypotheses
that keep every access in bounds). -/
def boxZero : Box := ⟨0, 0, 0, 0⟩

/-- `intersectBoxes` from the source: `None` models a pyPdf box that is
absent (falsy).  Both absent gives absent, one absent gives the other,
otherwise lowerLeft is the coordinatewise max and upperRight the
coordinatewise min. -/
def intersectBoxes : Option Box → Option Box → Option Box
  | none, none => none
  | none, some b => some b
  | some b, none => some b
  | some b1, some b2 =>
      some ⟨max b1.left b2.left, max b1.bottom b2.bottom,
            min b1.right b2.right, min b1.top b2.top⟩

/-- The configuration fields of the global `args` object read or written
by `calculateCropList`.  `uniformOrderStat` and `uniformOrderPercent` are
singleton lists in the source (empty/None when unset): an `Option` models
the Python truthiness tests on them. -/
structure Args where
  samePageSize : Bool
  evenodd : Bool
  uniform : Bool
  uniformOrderStat : Option ℤ
  uniformOrderPercent : Option ℚ
  percentRetain : Box
  absoluteOffset : Box
deriving DecidableEq

/-- Python `min` over a list of numbers (the source only applies it to
nonempty lists; the `[]` case, where Python raises ValueError, returns 0). -/
def listMin : List ℚ → ℚ
  | [] => 0
  | x :: xs => xs.foldl min x

/-- Python `max` over a list of numbers (see `listMin`). -/
def listMax : List ℚ → ℚ
  | [] => 0
  | x :: xs => xs.foldl max x

/-- Insert a value into an already sorted list (helper for `sortList`). -/
def insertSorted (x : ℚ) : List ℚ → List ℚ
  | [] => [x]
  | y :: ys => if x ≤ y then x :: y :: ys else y :: insertSorted x ys

/-- Python's `sorted` on a list of numbers (ascending), realized as an
insertion sort. -/
def sortList (l : List ℚ) : List ℚ := l.foldr insertSorted []

/-- The `--samePageSize` step of `calculateCropList`: when enabled the
full-page box list is replaced by `numPages` copies of the smallest box
holding all of them (min of lefts and bottoms, max of rights and tops). -/
def samePageStep (same : Bool) (numPages : ℕ) (fullPageBoxList : List Box) : List Box :=
  if same then
    List.replicate numPages
      ⟨listMin (fullPageBoxList.map Box.left), listMin (fullPageBoxList.map Box.bottom),
       listMax (fullPageBoxList.map Box.right), listMax (fullPageBoxList.map Box.top)⟩
  else fullPageBoxList

/-- One page's adjusted delta 4-tuple: `abs(tight - full)` per margin,
scaled by `(100 - percentRetain)/100`, plus the absolute offset. -/
def pageDelta (pR aO : Box) (tBox fBox : Box) : Box :=
  ⟨|tBox.left - fBox.left| * (100 - pR.left) / 100 + aO.left,
   |tBox.bottom - fBox.bottom| * (100 - pR.bottom) / 100 + aO.bottom,
   |tBox.right - fBox.right| * (100 - pR.right) / 100 + aO.right,
   |tBox.top - fBox.top| * (100 - pR.top) / 100 + aO.top⟩

/-- The final step of `calculateCropList`: deltas are added on left and
bottom and subtracted on right and top of each full-page box. -/
def applyDeltas (fullPageBoxList deltaList : List Box) : List Box :=
  List.zipWith
    (fun fBox d =>
      ⟨fBox.left + d.left, fBox.bottom + d.bottom, fBox.right - d.right, fBox.top - d.top⟩)
    fullPageBoxList deltaList

/-- The clamping of the uniform order-statistic index (lines 299-305 of
the source).  Returns (warning printed?, clamped index): when the index is
out of `[0, count)` a warning is emitted, an index at or above `count` is
first pulled down to `count - 1`, and a still-negative index is raised
to 0. -/
def clampOrderStat (i : ℤ) (count : ℕ) : Bool × ℤ :=
  if i < 0 ∨ (count : ℤ) ≤ i then
    let i1 := if (count : ℤ) ≤ i then (count : ℤ) - 1 else i
    let i2 := if i1 < 0 then 0 else i1
    (true, i2)
  else (false, i)

/-- The `--uniformOrderPercent` conversion (lines 287-291): the percent
value is clamped into [0, 100] and then `round(count * percent / 100)`
becomes the order-statistic index. -/
def pctToOrderStat (count : ℕ) (pct : ℚ) : ℤ :=
  let p1 := if pct < 0 then 0 else pct
  let p2 := if p1 > 100 then 100 else p1
  round ((count : ℚ) * p2 / 100)

/-- The deltas of the pages selected for cropping, in increasing page
order (`[ deltaList[j] for j in pageRange if j in pageNumsToCrop ]`). -/
def cropDeltaListOf (deltaList : List Box) (numPages : ℕ) (pageNumsToCrop : Finset ℕ) :
    List Box :=
  ((List.range numPages).filter (fun j => decide (j ∈ pageNumsToCrop))).map
    (fun j => deltaList.getD j boxZero)

/-- The body of `calculateCropList` with the `--evenodd` branch removed:
this is exactly what the recursive calls execute, since they run with
`args.evenodd` set to False.  Returns the updated `args` (the source
mutates the global `args` object) together with the final crop list. -/
def calculateCropListBase (args : Args) (fullPageBoxList boundingBoxList : List Box)
    (pageNumsToCrop : Finset ℕ) : Args × List Box :=
  let numPages := boundingBoxList.length
  let numPagesToCrop := pageNumsToCrop.card
  let fullL := samePageStep args.samePageSize numPages fullPageBoxList
  let deltaList := List.zipWith (pageDelta args.percentRetain args.absoluteOffset)
    boundingBoxList fullL
  let pctStat := some (pctToOrderStat numPagesToCrop (args.uniformOrderPercent.getD 0))
  let args1 :=
    if args.uniformOrderPercent.isSome then { args with uniformOrderStat := pctStat }
    else args
  if args1.uniform = true ∨ args1.uniformOrderStat.isSome then
    let cropDeltaList := cropDeltaListOf deltaList numPages pageNumsToCrop
    let idx := ((clampOrderStat (args1.uniformOrderStat.getD 0) numPagesToCrop).2).toNat
    let uniformDelta : Box :=
      ⟨(sortList (cropDeltaList.map Box.left)).getD idx 0,
       (sortList (cropDeltaList.map Box.bottom)).getD idx 0,
       (sortList (cropDeltaList.map Box.right)).getD idx 0,
       (sortList (cropDeltaList.map Box.top)).getD idx 0⟩
    (args1, applyDeltas fullL (List.replicate numPages uniformDelta))
  else
    (args1, applyDeltas fullL deltaList)

/-- The even-indexed subset of the selected pages. -/
def evenSelOf (sel : Finset ℕ) : Finset ℕ := sel.filter (fun n => n % 2 = 0)

/-- The odd-indexed subset of the selected pages. -/
def oddSelOf (sel : Finset ℕ) : Finset ℕ := sel.filter (fun n => ¬n % 2 = 0)

/-- The `args` mutation performed before the even/odd recursion:
`args.evenodd = False; args.uniform = True`. -/
def eoArgs (args : Args) : Args := { args with evenodd := false, uniform := true }

/-- The recombination of the even and odd crop lists back into page order:
entry `p` is taken from the even list when `p` is even and from the odd
list otherwise. -/
def evenOddCombine (numPages : ℕ) (evenCropList oddCropList : List Box) : List Box :=
  (List.range numPages).map
    (fun p => if p % 2 = 0 then evenCropList.getD p boxZero else oddCropList.getD p boxZero)

/-- The extra pass run when `--uniform` was set together with `--evenodd`:
every box keeps its left and right but gets the minimum bottom and the
maximum top over the whole combined list. -/
def uniformBTNormalize (l : List Box) : List Box :=
  l.map (fun b => ⟨b.left, listMin (l.map Box.bottom), b.right, listMax (l.map Box.top)⟩)

/-- `calculateCropList` with the source's mutation of the global `args`
made explicit: the result pairs the `args` state after the call with the
returned crop list.  The even/odd branch recurses (via
`calculateCropListBase`, which is the function's own body given that the
recursive calls see `evenodd = False`) on the even and odd subsets,
threading the mutated `args` from the even call into the odd call. -/
def calculateCropList (args : Args) (fullPageBoxList boundingBoxList : List Box)
    (pageNumsToCrop : Finset ℕ) : Args × List Box :=
  let numPages := boundingBoxList.length
  if args.evenodd = true then
    let fullL := samePageStep args.samePageSize numPages fullPageBoxList
    let uniformSetWithEvenOdd := args.uniform
    let evenResult := calculateCropListBase (eoArgs args) fullL boundingBoxList
      (evenSelOf pageNumsToCrop)
    let oddResult := calculateCropListBase evenResult.1 fullL boundingBoxList
      (oddSelOf pageNumsToCrop)
    let combineEvenOdd := evenOddCombine numPages evenResult.2 oddResult.2
    if uniformSetWithEvenOdd = true then (oddResult.1, uniformBTNormalize combineEvenOdd)
    else (oddResult.1, combineEvenOdd)
  else
    calculateCropListBase args fullPageBoxList boundingBoxList pageNumsToCrop

/-- The combined (interleaved) crop list produced inside the even/odd
branch of `calculateCropList`, before the optional cross-group
bottom/top normalization: the even recursive result and the odd
recursive result (run with the `args` state left by the even call)
recombined in page order. -/
def eoCombinedOf (args : Args) (fullPageBoxList boundingBoxList : List Box)
    (pageNumsToCrop : Finset ℕ) : List Box :=
  evenOddCombine boundingBoxList.length
    (calculateCropListBase (eoArgs args)
      (samePageStep args.samePageSize boundingBoxList.length fullPageBoxList)
      boundingBoxList (evenSelOf pageNumsToCrop)).2
    (calculateCropListBase
      (calculateCropListBase (eoArgs args)
        (samePageStep args.samePageSize boundingBoxList.length fullPageBoxList)
        boundingBoxList (evenSelOf pageNumsToCrop)).1
      (samePageStep args.samePageSize boundingBoxList.length fullPageBoxList)
      boundingBoxList (oddSelOf pageNumsToCrop)).2

/-- The five named PDF boxes a page carries ("m", "c", "t", "a", "b" in
the source's option strings). -/
inductive BoxKind
  | m
  | c
  | t
  | a
  | b
deriving DecidableEq

/-- A pyPdf page as the engine sees it: the five PDF boxes plus the two
extra attributes `originalMediaBox` / `originalCropBox` that
`getFullPageBox` stores in the page's namespace (absent boxes are
`none`). -/
structure Page where
  mediaBox : Option Box
  cropBox : Option Box
  trimBox : Option Box
  artBox : Option Box
  bleedBox : Option Box
  originalMediaBox : Option Box
  originalCropBox : Option Box
deriving DecidableEq

/-- A page with every box absent; also the fallback for out-of-range page
indexing. -/
def pageDefault : Page := ⟨none, none, none, none, none, none, none⟩

/-- Look up one of the five named boxes on a page. -/
def Page.getBox (p : Page) : BoxKind → Option Box
  | BoxKind.m => p.mediaBox
  | BoxKind.c => p.cropBox
  | BoxKind.t => p.trimBox
  | BoxKind.a => p.artBox
  | BoxKind.b => p.bleedBox

/-- The full-page box of one page: the left-fold of `intersectBoxes` over
the boxes named by `args.fullPageBox`, seeded with the first named box
(with an empty list the Python code would hit an unbound variable; `main`
always supplies a nonempty default). -/
def resolveFullBox (kinds : List BoxKind) (p : Page) : Option Box :=
  match kinds with
  | [] => none
  | k :: ks => ks.foldl (fun acc k2 => intersectBoxes acc (p.getBox k2)) (p.getBox k)

/-- `getFullPageBox`: stash the current media and crop box into the
page's `original*` attributes, then overwrite both with the resolved
full-page box. -/
def getFullPageBox (kinds : List BoxKind) (p : Page) : Page :=
  let fullBox := resolveFullBox kinds p
  { p with originalMediaBox := p.mediaBox, originalCropBox := p.cropBox,
           mediaBox := fullBox, cropBox := fullBox }

/-- The string appended to the Producer metadata of cropped output. -/
def producerModifier : String := " (Cropped by pdfCropMargins.)"

/-- The empty string. -/
def emptyStr : String := ""

/-- The marker test of `setCroppedMetadata`: Python's
`producer.endswith(producerModifier)`, stated on the character lists. -/
def hasMarker (producer : String) : Bool :=
  producerModifier.data.isSuffixOf producer.data

/-- A PDF document as the engine sees it: its pages and its Producer
metadata string. -/
structure Doc where
  pages : List Page
  producer : String
deriving DecidableEq

/-- The per-page body of `applyCropList` in crop mode: first the undo
stash of `intersect(mediaBox, cropBox)` into the ArtBox (unless
`--noundosave` is set or the document was already cropped by this
program), then the media and crop boxes are reset to their saved original
values, and finally - only for pages selected for cropping - the computed
crop box is written into every box kind in `boxesToSet` (an empty
`boxesToSet` means the default `["m", "c"]`). -/
def applyCropPage (noundosave alreadyCroppedByThisProgram : Bool) (boxesToSet : List BoxKind)
    (pageNumsToCrop : Finset ℕ) (cropList : List Box) (pageNum : ℕ) (p : Page) : Page :=
  let p1 :=
    if noundosave = false ∧ alreadyCroppedByThisProgram = false then
      { p with artBox := intersectBoxes p.mediaBox p.cropBox }
    else p
  let p2 := { p1 with mediaBox := p1.originalMediaBox, cropBox := p1.originalCropBox }
  if pageNum ∈ pageNumsToCrop then
    let newCroppedBox := some (cropList.getD pageNum boxZero)
    let bts := if boxesToSet = [] then [BoxKind.m, BoxKind.c] else boxesToSet
    let p3 := if BoxKind.m ∈ bts then { p2 with mediaBox := newCroppedBox } else p2
    let p4 := if BoxKind.c ∈ bts then { p3 with cropBox := newCroppedBox } else p3
    let p5 := if BoxKind.t ∈ bts then { p4 with trimBox := newCroppedBox } else p4
    let p6 := if BoxKind.a ∈ bts then { p5 with artBox := newCroppedBox } else p5
    if BoxKind.b ∈ bts then { p6 with bleedBox := newCroppedBox } else p6
  else p2

/-- The per-page body of `applyCropList` in restore mode: both the media
and the crop box are overwritten with the ArtBox, on every page. -/
def restorePage (p : Page) : Page :=
  { p with mediaBox := p.artBox, cropBox := p.artBox }

/-- A whole crop-mode run over one document, following `main`: read the
Producer marker, resolve every page's full-page box (mutating the pages),
compute the crop list from the resolved full boxes and the externally
supplied bounding boxes, apply it page by page, and append the marker to
the Producer string (unless already present). -/
def cropRun (cargs : Args) (kinds : List BoxKind) (noundosave : Bool)
    (boxesToSet : List BoxKind) (doc : Doc) (boundingBoxList : List Box)
    (pageNumsToCrop : Finset ℕ) : Doc :=
  let alreadyCropped := hasMarker doc.producer
  let resolvedPages := doc.pages.map (getFullPageBox kinds)
  let fullPageBoxList := doc.pages.map (fun p => (resolveFullBox kinds p).getD boxZero)
  let cropList := (calculateCropList cargs fullPageBoxList boundingBoxList pageNumsToCrop).2
  let outPages := (List.range doc.pages.length).map
    (fun i => applyCropPage noundosave alreadyCropped boxesToSet pageNumsToCrop cropList i
      (resolvedPages.getD i pageDefault))
  ⟨outPages, doc.producer ++ (if alreadyCropped = true then emptyStr else producerModifier)⟩

/-- A whole restore-mode run, following `main` with `--restore`: the
full-page resolution still happens first (its float list is unused in
restore mode), then every page's media and crop box are replaced by its
ArtBox, and the Producer marker handling is the same as in crop mode. -/
def restoreRun (kinds : List BoxKind) (doc : Doc) : Doc :=
  let alreadyCropped := hasMarker doc.producer
  let resolvedPages := doc.pages.map (getFullPageBox kinds)
  let outPages := (List.range doc.pages.length).map
    (fun i => restorePage (resolvedPages.getD i pageDefault))
  ⟨outPages, doc.producer ++ (if alreadyCropped = true then emptyStr else producerModifier)⟩

/-- A baseline configuration: no grouping mode, no order statistic, both
per-margin 4-tuples zero (percentRetain 0 crops flush to the tight box). -/
def argsNone : Args := ⟨false, false, false, none, none, boxZero, boxZero⟩

/-- The baseline configuration with only `--evenodd` switched on. -/
def argsEO : Args := { argsNone with evenodd := true }

/-- A one-page sample document: media box (0,0,100,200), crop box
(10,10,90,190), art box (1,2,3,4), never processed by the program. -/
def docA : Doc :=
  ⟨[⟨some ⟨0, 0, 100, 200⟩, some ⟨10, 10, 90, 190⟩, none, some ⟨1, 2, 3, 4⟩, none,
      none, none⟩],
   emptyStr⟩

/-- A sample one-page bounding-box list for `docA`. -/
def bbA : List Box := [⟨20, 20, 80, 180⟩]

/-- The baseline configuration with `--evenodd` and `--uniform` both on. -/
def argsEOU : Args := { argsNone with evenodd := true, uniform := true }

/-- A two-page full-page box list. -/
def full2 : List Box := [⟨0, 0, 100, 200⟩, ⟨0, 0, 100, 200⟩]

/-- A two-page tight bounding-box list. -/
def bb2 : List Box := [⟨10, 10, 90, 190⟩, ⟨20, 20, 80, 180⟩]

/-! ### Helper lemmas about the list operations used by the engine -/

theorem getD_map_lt {α β : Type} (f : α → β) (l : List α) (i : ℕ) (d : β) (d0 : α)
    (h : i < l.length) : (l.map f).getD i d = f (l.getD i d0) := by
  induction l generalizing i with
  | nil => simp at h
  | cons a as ih =>
    cases i with
    | zero => simp
    | succ n =>
      simp only [List.map_cons, List.getD_cons_succ]
      exact ih n (by simpa using h)

theorem getD_zipWith_lt {α β γ : Type} (f : α → β → γ) (as : List α) (bs : List β) (i : ℕ)
    (d : γ) (da : α) (db : β) (h1 : i < as.length) (h2 : i < bs.length) :
    (List.zipWith f as bs).getD i d = f (as.getD i da) (bs.getD i db) := by
  induction as generalizing bs i with
  | nil => simp at h1
  | cons a as ih =>
    cases bs with
    | nil => simp at h2
    | cons b bs =>
      cases i with
      | zero => simp
      | succ n =>
        simp only [List.zipWith_cons_cons, List.getD_cons_succ]
        exact ih bs n (by simpa using h1) (by simpa using h2)

theorem getD_replicate_lt {α : Type} (x d : α) (n i : ℕ) (h : i < n) :
    (List.replicate n x).getD i d = x := by
  induction n generalizing i with
  | zero => omega
  | succ m ih =>
    cases i with
    | zero => simp [List.replicate_succ]
    | succ k =>
      simp only [List.replicate_succ, List.getD_cons_succ]
      exact ih k (by omega)

theorem getD_range_lt (n i d : ℕ) (h : i < n) : (List.range n).getD i d = i := by
  rw [List.getD_eq_getElem _ _ (by simpa using h)]
  simp

theorem filter_range_mem_singleton (n j : ℕ) (h : j < n) :
    (List.range n).filter (fun x => decide (x ∈ ({j} : Finset ℕ))) = [j] := by
  induction n with
  | zero => omega
  | succ m ih =>
    rw [List.range_succ, List.filter_append]
    rcases Nat.lt_or_ge j m with hjm | hjm
    · rw [ih hjm]
      have hmj : ¬m = j := by omega
      simp [Finset.mem_singleton, hmj]
    · have hj : j = m := by omega
      subst hj
      have hnil : (List.range j).filter (fun x => decide (x ∈ ({j} : Finset ℕ))) = [] := by
        apply List.filter_eq_nil_iff.mpr
        intro x hx
        have : x < j := List.mem_range.mp hx
        simp
        omega
      rw [hnil]
      simp

theorem length_filter_range_mem (sel : Finset ℕ) (n : ℕ) (h : sel ⊆ Finset.range n) :
    ((List.range n).filter (fun j => decide (j ∈ sel))).length = sel.card := by
  induction n generalizing sel with
  | zero =>
    have : sel = ∅ := Finset.subset_empty.mp (by simpa using h)
    subst this
    simp
  | succ m ih =>
    rw [List.range_succ, List.filter_append]
    by_cases hm : m ∈ sel
    · have hsub : sel.erase m ⊆ Finset.range m := by
        intro x hx
        have hxm := Finset.ne_of_mem_erase hx
        have := h (Finset.mem_of_mem_erase hx)
        rw [Finset.mem_range] at *
        omega
      have hcongr : (List.range m).filter (fun j => decide (j ∈ sel)) =
          (List.range m).filter (fun j => decide (j ∈ sel.erase m)) := by
        apply List.filter_congr
        intro x hx
        have hxm : x < m := List.mem_range.mp hx
        apply decide_eq_decide.mpr
        rw [Finset.mem_erase]
        constructor
        · intro hxs
          exact ⟨by omega, hxs⟩
        · intro hxs
          exact hxs.2
      rw [List.length_append, hcongr, ih _ hsub]
      have hpos : 0 < sel.card := Finset.card_pos.mpr ⟨m, hm⟩
      rw [Finset.card_erase_of_mem hm]
      simp [hm]
      omega
    · have hsub : sel ⊆ Finset.range m := by
        intro x hx
        have := Finset.mem_range.mp (h hx)
        have hne : x ≠ m := by
          rintro rfl
          exact hm hx
        rw [Finset.mem_range]
        omega
      rw [List.length_append, ih _ hsub]
      simp [hm]

theorem length_insertSorted (x : ℚ) (l : List ℚ) :
    (insertSorted x l).length = l.length + 1 := by
  induction l with
  | nil => rfl
  | cons y ys ih =>
    unfold insertSorted
    split
    · simp
    · simp [ih]

theorem length_sortList (l : List ℚ) : (sortList l).length = l.length := by
  induction l with
  | nil => rfl
  | cons x xs ih =>
    show (insertSorted x (sortList xs)).length = xs.length + 1
    rw [length_insertSorted, ih]

theorem foldl_min_le_init (l : List ℚ) (a : ℚ) : l.foldl min a ≤ a := by
  induction l generalizing a with
  | nil => exact le_refl a
  | cons b bs ih =>
    calc (b :: bs).foldl min a = bs.foldl min (min a b) := rfl
    _ ≤ min a b := ih (min a b)
    _ ≤ a := min_le_left a b

theorem foldl_min_le (l : List ℚ) (a x : ℚ) (h : x = a ∨ x ∈ l) : l.foldl min a ≤ x := by
  induction l generalizing a with
  | nil =>
    rcases h with h | h
    · subst h
      exact le_refl x
    · simp at h
  | cons b bs ih =>
    show bs.foldl min (min a b) ≤ x
    rcases h with h | h
    · subst h
      exact le_trans (foldl_min_le_init bs (min x b)) (min_le_left x b)
    · rcases List.mem_cons.mp h with h2 | h2
      · subst h2
        exact le_trans (foldl_min_le_init bs (min a x)) (min_le_right a x)
      · exact ih (min a b) (Or.inr h2)

theorem listMin_le (l : List ℚ) (x : ℚ) (h : x ∈ l) : listMin l ≤ x := by
  cases l with
  | nil => simp at h
  | cons a as =>
    exact foldl_min_le as a x (by simpa [eq_comm] using List.mem_cons.mp h)

theorem le_foldl_max_init (l : List ℚ) (a : ℚ) : a ≤ l.foldl max a := by
  induction l generalizing a with
  | nil => exact le_refl a
  | cons b bs ih =>
    calc a ≤ max a b := le_max_left a b
    _ ≤ bs.foldl max (max a b) := ih (max a b)
    _ = (b :: bs).foldl max a := rfl

theorem le_foldl_max (l : List ℚ) (a x : ℚ) (h : x = a ∨ x ∈ l) : x ≤ l.foldl max a := by
  induction l generalizing a with
  | nil =>
    rcases h with h | h
    · subst h
      exact le_refl x
    · simp at h
  | cons b bs ih =>
    show x ≤ bs.foldl max (max a b)
    rcases h with h | h
    · subst h
      exact le_trans (le_max_left x b) (le_foldl_max_init bs (max x b))
    · rcases List.mem_cons.mp h with h2 | h2
      · subst h2
        exact le_trans (le_max_right a x) (le_foldl_max_init bs (max a x))
      · exact ih (max a b) (Or.inr h2)

theorem le_listMax (l : List ℚ) (x : ℚ) (h : x ∈ l) : x ≤ listMax l := by
  cases l with
  | nil => simp at h
  | cons a as =>
    exact le_foldl_max as a x (by simpa [eq_comm] using List.mem_cons.mp h)

theorem boxEta (d : Box) : (⟨d.left, d.bottom, d.right, d.top⟩ : Box) = d := by
  cases d
  rfl

theorem intersectBoxes_self (x : Option Box) : intersectBoxes x x = x := by
  cases x with
  | none => rfl
  | some b => simp [intersectBoxes]

/-! ### Structural lemmas about the crop-list calculator -/

theorem clampOrderStat_mem (i : ℤ) (count : ℕ) (h : 0 < count) :
    0 ≤ (clampOrderStat i count).2 ∧ (clampOrderStat i count).2 < (count : ℤ) := by
  unfold clampOrderStat
  split_ifs <;> simp <;> omega

theorem clampOrderStat_idem (i : ℤ) (count : ℕ) (h : 0 < count) :
    clampOrderStat ((clampOrderStat i count).2) count = (false, (clampOrderStat i count).2) := by
  obtain ⟨h1, h2⟩ := clampOrderStat_mem i count h
  unfold clampOrderStat
  rw [if_neg]
  simp only [not_or, not_lt, not_le]
  exact ⟨h1, h2⟩

theorem calculateCropListBase_fst (args : Args) (fullL bbL : List Box) (sel : Finset ℕ) :
    (calculateCropListBase args fullL bbL sel).1 =
      if args.uniformOrderPercent.isSome then
        { args with
          uniformOrderStat := some (pctToOrderStat sel.card (args.uniformOrderPercent.getD 0)) }
      else args := by
  unfold calculateCropListBase
  dsimp only
  by_cases hp : args.uniformOrderPercent.isSome = true
  · simp only [hp, if_true]
    split <;> rfl
  · simp only [Bool.not_eq_true] at hp
    simp only [hp, Bool.false_eq_true, if_false]
    split <;> rfl

theorem calculateCropListBase_fst_evenodd (args : Args) (fullL bbL : List Box)
    (sel : Finset ℕ) :
    ((calculateCropListBase args fullL bbL sel).1).evenodd = args.evenodd := by
  rw [calculateCropListBase_fst]
  split <;> rfl

theorem calculateCropList_eq_base (args : Args) (fullL bbL : List Box) (sel : Finset ℕ)
    (h : args.evenodd = false) :
    calculateCropList args fullL bbL sel = calculateCropListBase args fullL bbL sel := by
  unfold calculateCropList
  simp [h]

theorem calculateCropList_evenodd (args : Args) (fullL bbL : List Box) (sel : Finset ℕ)
    (h : args.evenodd = true) :
    calculateCropList args fullL bbL sel =
      (let fullL1 := samePageStep args.samePageSize bbL.length fullL
       let r1 := calculateCropListBase (eoArgs args) fullL1 bbL (evenSelOf sel)
       let r2 := calculateCropListBase r1.1 fullL1 bbL (oddSelOf sel)
       let combine := evenOddCombine bbL.length r1.2 r2.2
       if args.uniform = true then (r2.1, uniformBTNormalize combine)
       else (r2.1, combine)) := by
  unfold calculateCropList
  simp [h]

theorem calculateCropListBase_snd_plain (args : Args) (fullL bbL : List Box)
    (sel : Finset ℕ) (hSPS : args.samePageSize = false) (hU : args.uniform = false)
    (hStat : args.uniformOrderStat = none) (hPct : args.uniformOrderPercent = none) :
    (calculateCropListBase args fullL bbL sel).2 =
      applyDeltas fullL
        (List.zipWith (pageDelta args.percentRetain args.absoluteOffset) bbL fullL) := by
  unfold calculateCropListBase
  simp [samePageStep, hSPS, hU, hStat, hPct]

theorem calculateCropListBase_snd_uniform_singleton (args : Args) (fullL bbL : List Box)
    (j : ℕ) (hSPS : args.samePageSize = false) (hU : args.uniform = true)
    (hStat : args.uniformOrderStat = none) (hPct : args.uniformOrderPercent = none)
    (hj : j < bbL.length) :
    (calculateCropListBase args fullL bbL {j}).2 =
      applyDeltas fullL
        (List.replicate bbL.length
          ((List.zipWith (pageDelta args.percentRetain args.absoluteOffset) bbL fullL).getD
            j boxZero)) := by
  unfold calculateCropListBase
  simp only [samePageStep, hSPS, hU, hStat, hPct, if_false, Bool.false_eq_true,
    Option.isSome_none, Option.getD_none, true_or, if_true]
  have hsel : cropDeltaListOf
      (List.zipWith (pageDelta args.percentRetain args.absoluteOffset) bbL fullL)
      bbL.length {j} =
      [(List.zipWith (pageDelta args.percentRetain args.absoluteOffset) bbL fullL).getD
        j boxZero] := by
    unfold cropDeltaListOf
    rw [filter_range_mem_singleton bbL.length j hj]
    rfl
  rw [hsel, Finset.card_singleton]
  have h0 : ((clampOrderStat 0 1).2).toNat = 0 := by decide
  rw [h0]
  simp only [List.map_cons, List.map_nil]
  have hs : ∀ x : ℚ, (sortList [x]).getD 0 0 = x := fun x => rfl
  rw [hs, hs, hs, hs]

theorem pageDelta_zero_crop (t f : Box)
    (h1 : f.left ≤ t.left) (h2 : f.bottom ≤ t.bottom)
    (h3 : t.right ≤ f.right) (h4 : t.top ≤ f.top) :
    (⟨f.left + (pageDelta boxZero boxZero t f).left,
      f.bottom + (pageDelta boxZero boxZero t f).bottom,
      f.right - (pageDelta boxZero boxZero t f).right,
      f.top - (pageDelta boxZero boxZero t f).top⟩ : Box) = t := by
  obtain ⟨tl, tb, tr, tt⟩ := t
  obtain ⟨fl, fb, fr, ft⟩ := f
  simp only [pageDelta, boxZero] at *
  rw [Box.mk.injEq]
  refine ⟨?_, ?_, ?_, ?_⟩
  · rw [abs_of_nonneg (by linarith)]
    ring
  · rw [abs_of_nonneg (by linarith)]
    ring
  · rw [abs_of_nonpos (by linarith)]
    ring
  · rw [abs_of_nonpos (by linarith)]
    ring

/-! ### Claim theorems -/

/-- C8: `intersectBoxes` is commutative and associative, an absent box is
a right and left identity for it, and intersecting two absent boxes
yields an absent box. -/
theorem intersectBoxes_comm_assoc_identity :
    (∀ x y : Option Box, intersectBoxes x y = intersectBoxes y x) ∧
    (∀ x y z : Option Box,
      intersectBoxes (intersectBoxes x y) z = intersectBoxes x (intersectBoxes y z)) ∧
    (∀ x : Option Box, intersectBoxes x none = x ∧ intersectBoxes none x = x) ∧
    intersectBoxes none none = (none : Option Box) := by
  refine ⟨?_, ?_, ?_, rfl⟩
  · intro x y
    cases x <;> cases y <;> simp [intersectBoxes, max_comm, min_comm]
  · intro x y z
    cases x <;> cases y <;> cases z <;> simp [intersectBoxes, max_assoc, min_assoc]
  · intro x
    cases x <;> simp [intersectBoxes]

/-- C4 (amended): `calculateCropList` is a deterministic function of the
explicitly passed state, but it mutates the configuration: with even/odd
off and no percentile the configuration is returned unchanged, with
even/odd on it comes back with `evenodd` cleared and `uniform` forced on
(the source never restores these flags), and a supplied percentile
overwrites `uniformOrderStat`. -/
theorem calculateCropList_state_mutation (args : Args) (fullL bbL : List Box)
    (sel : Finset ℕ) :
    (args.uniformOrderPercent = none → args.evenodd = false →
      (calculateCropList args fullL bbL sel).1 = args) ∧
    (args.uniformOrderPercent = none → args.evenodd = true →
      (calculateCropList args fullL bbL sel).1 = eoArgs args) ∧
    (∀ pct : ℚ, args.uniformOrderPercent = some pct → args.evenodd = false →
      (calculateCropList args fullL bbL sel).1 =
        { args with uniformOrderStat := some (pctToOrderStat sel.card pct) }) := by
  refine ⟨?_, ?_, ?_⟩
  · intro hpct heo
    rw [calculateCropList_eq_base _ _ _ _ heo, calculateCropListBase_fst]
    simp [hpct]
  · intro hpct heo
    rw [calculateCropList_evenodd _ _ _ _ heo]
    have h1 : ∀ (s : Finset ℕ) (fl : List Box),
        (calculateCropListBase (eoArgs args) fl bbL s).1 = eoArgs args := by
      intro s fl
      rw [calculateCropListBase_fst]
      simp [eoArgs, hpct]
    dsimp only
    rw [h1, h1]
    split <;> rfl
  · intro pct hpct heo
    rw [calculateCropList_eq_base _ _ _ _ heo, calculateCropListBase_fst]
    simp [hpct]

/-- C4 witness: concrete instances of the no-mutation and the even/odd
mutation cases. -/
theorem calculateCropList_state_mutation_witness :
    (calculateCropList argsNone [boxZero] [boxZero] (∅ : Finset ℕ)).1 = argsNone ∧
    (calculateCropList argsEO [boxZero] [boxZero] (∅ : Finset ℕ)).1 = eoArgs argsEO :=
  ⟨(calculateCropList_state_mutation argsNone [boxZero] [boxZero] ∅).1 rfl rfl,
   (calculateCropList_state_mutation argsEO [boxZero] [boxZero] ∅).2.1 rfl rfl⟩

/-- C4 counterexample: with `--evenodd` set, the configuration state
after the call differs from the configuration state before it (the claim
says calling the function leaves the configuration unchanged). -/
theorem calculateCropList_mutates_args :
    (calculateCropList argsEO [boxZero] [boxZero] (∅ : Finset ℕ)).1 ≠ argsEO := by
  decide

/-- C2 (amended): with `percentRetain = [0,0,0,0]`,
`absoluteOffset = [0,0,0,0]` and no grouping mode, the computed crop box
of a page equals that page's tight bounding box exactly, provided the
tight box lies inside the full box coordinatewise (the source takes the
absolute difference per margin, so a tight box protruding from the full
box is reflected instead of reproduced). -/
theorem cropEqualsTight_of_tight_inside_full (args : Args) (fullL bbL : List Box)
    (sel : Finset ℕ) (i : ℕ)
    (hSPS : args.samePageSize = false) (hEO : args.evenodd = false)
    (hU : args.uniform = false) (hStat : args.uniformOrderStat = none)
    (hPct : args.uniformOrderPercent = none)
    (hPR : args.percentRetain = boxZero) (hAO : args.absoluteOffset = boxZero)
    (hlen : fullL.length = bbL.length) (hi : i < bbL.length)
    (h1 : (fullL.getD i boxZero).left ≤ (bbL.getD i boxZero).left)
    (h2 : (fullL.getD i boxZero).bottom ≤ (bbL.getD i boxZero).bottom)
    (h3 : (bbL.getD i boxZero).right ≤ (fullL.getD i boxZero).right)
    (h4 : (bbL.getD i boxZero).top ≤ (fullL.getD i boxZero).top) :
    (calculateCropList args fullL bbL sel).2.getD i boxZero = bbL.getD i boxZero := by
  rw [calculateCropList_eq_base _ _ _ _ hEO,
    calculateCropListBase_snd_plain args fullL bbL sel hSPS hU hStat hPct]
  unfold applyDeltas
  rw [getD_zipWith_lt _ fullL _ i boxZero boxZero boxZero (by omega)
    (by simp [List.length_zipWith]; omega)]
  rw [getD_zipWith_lt _ bbL fullL i boxZero boxZero boxZero (by omega) (by omega)]
  rw [hPR, hAO]
  exact pageDelta_zero_crop (bbL.getD i boxZero) (fullL.getD i boxZero) h1 h2 h3 h4

/-- C2 witness: a concrete one-page instance where the tight box is
inside the full box and the crop equals the tight box. -/
theorem cropEqualsTight_witness :
    (calculateCropList argsNone [(⟨0, 0, 100, 200⟩ : Box)] [(⟨10, 10, 90, 190⟩ : Box)]
      {0}).2.getD 0 boxZero = (⟨10, 10, 90, 190⟩ : Box) :=
  cropEqualsTight_of_tight_inside_full argsNone [⟨0, 0, 100, 200⟩] [⟨10, 10, 90, 190⟩]
    {0} 0 rfl rfl rfl rfl rfl rfl rfl rfl (by decide) (by decide) (by decide)
    (by decide) (by decide)

/-- C2 counterexample: a tight box protruding past the full box on the
left (tight.left = -10 < full.left = 0) yields crop.left = 10, not -10,
so the crop box does not equal the tight box as the claim states. -/
theorem cropList_ne_tight_when_tight_protrudes :
    (calculateCropList argsNone [(⟨0, 0, 100, 200⟩ : Box)] [(⟨-10, 10, 90, 190⟩ : Box)]
      {0}).2.getD 0 boxZero ≠ (⟨-10, 10, 90, 190⟩ : Box) := by
  have hval : (calculateCropList argsNone [(⟨0, 0, 100, 200⟩ : Box)]
      [(⟨-10, 10, 90, 190⟩ : Box)] {0}).2.getD 0 boxZero = (⟨10, 10, 90, 190⟩ : Box) := by
    rw [calculateCropList_eq_base _ _ _ _ rfl,
      calculateCropListBase_snd_plain argsNone _ _ {0} rfl rfl rfl rfl]
    unfold applyDeltas
    rw [getD_zipWith_lt _ _ _ 0 boxZero boxZero boxZero (by decide) (by decide)]
    rw [getD_zipWith_lt _ _ _ 0 boxZero boxZero boxZero (by decide) (by decide)]
    simp only [List.getD_cons_zero]
    norm_num [pageDelta, argsNone, boxZero, Box.mk.injEq]
  rw [hval]
  decide

/-- C7 (amended): a nonempty selection given, an order-statistic index
below 0 is clamped to 0 and one at or above `count` to `count - 1`, in
both cases with a warning, while an in-range index passes through with no
warning; the resulting crop list is the one computed with the clamped
index.  A percentile selector is first clamped into [0, 100] and only
then converted via `round(count * pct / 100)` (the claim's conversion of
the raw percentile is what the code does only for in-range percentiles). -/
theorem orderStat_clamping (i : ℤ) (count : ℕ) (h : 0 < count) :
    (i < 0 → clampOrderStat i count = (true, 0)) ∧
    ((count : ℤ) ≤ i → clampOrderStat i count = (true, (count : ℤ) - 1)) ∧
    (0 ≤ i → i < (count : ℤ) → clampOrderStat i count = (false, i)) ∧
    (∀ pct : ℚ, 0 ≤ pct → pct ≤ 100 →
      pctToOrderStat count pct = round ((count : ℚ) * pct / 100)) ∧
    (∀ pct : ℚ, pct < 0 → pctToOrderStat count pct = pctToOrderStat count 0) ∧
    (∀ pct : ℚ, 100 < pct → pctToOrderStat count pct = pctToOrderStat count 100) ∧
    (∀ (args2 : Args) (fullL bbL : List Box) (sel : Finset ℕ),
      sel.card = count → args2.uniformOrderPercent = none →
      args2.uniformOrderStat = some i →
      (calculateCropListBase args2 fullL bbL sel).2 =
        (calculateCropListBase
          { args2 with uniformOrderStat := some ((clampOrderStat i count).2) }
          fullL bbL sel).2) := by
  refine ⟨?_, ?_, ?_, ?_, ?_, ?_, ?_⟩
  · intro h1
    unfold clampOrderStat
    split_ifs <;> simp_all <;> omega
  · intro h1
    unfold clampOrderStat
    split_ifs <;> simp_all <;> omega
  · intro h1 h2
    unfold clampOrderStat
    split_ifs <;> simp_all <;> omega
  · intro pct hp1 hp2
    unfold pctToOrderStat
    dsimp only
    rw [if_neg (not_lt.mpr hp1), if_neg (not_lt.mpr hp2)]
  · intro pct hp
    unfold pctToOrderStat
    dsimp only
    rw [if_pos hp]
    norm_num
  · intro pct hp
    unfold pctToOrderStat
    dsimp only
    rw [if_neg (by linarith : ¬pct < 0), if_pos hp]
    norm_num
  · intro args2 fullL bbL sel hcard hpct hstat
    unfold calculateCropListBase
    simp only [hpct, hstat, hcard, Option.isSome_none, Option.isSome_some,
      Option.getD_some, Bool.false_eq_true, if_false, or_true, if_true]
    rw [clampOrderStat_idem i count h]

/-- C7 witness: concrete clampings of an index above, below and inside
the valid range for three selected pages. -/
theorem orderStat_clamping_witness :
    clampOrderStat 7 3 = (true, 2) ∧ clampOrderStat (-2) 3 = (true, 0) ∧
    clampOrderStat 1 3 = (false, 1) :=
  ⟨(orderStat_clamping 7 3 (by decide)).2.1 (by decide),
   (orderStat_clamping (-2) 3 (by decide)).1 (by decide),
   (orderStat_clamping 1 3 (by decide)).2.2.1 (by decide) (by decide)⟩

/-- C7 counterexample: for count = 4 and percentile -50, the code first
clamps the percentile to 0 and converts it to index 0, which is in range,
so no warning is produced; the claim's conversion `round(count * pct /
100)` would instead give -2, which would then be clamped with a warning. -/
theorem percentile_not_converted_via_plain_round :
    pctToOrderStat 4 (-50) = 0 ∧ round ((4 : ℚ) * (-50) / 100) = (-2 : ℤ) ∧
    clampOrderStat (pctToOrderStat 4 (-50)) 4 = (false, 0) ∧
    clampOrderStat (-2) 4 = (true, 0) := by
  have h1 : pctToOrderStat 4 (-50) = 0 := by
    unfold pctToOrderStat
    norm_num
  have h2 : round ((4 : ℚ) * (-50) / 100) = (-2 : ℤ) := by
    rw [show ((4 : ℚ) * (-50) / 100) = -2 by norm_num, round_eq]
    norm_num
  refine ⟨h1, h2, ?_, by decide⟩
  rw [h1]
  decide

/-- C10: when the selected-page set is nonempty (and consists of pages of
the document), the clamped uniform order-statistic index lies in
`[0, count-1]` and indexes all four sorted per-margin delta lists in
bounds; the nonemptiness is necessary because the even/odd split can hand
an empty group to the uniform path (a one-page document has no odd
pages), and there the sorted lists are empty while the clamped index is
still 0, an out-of-bounds access. -/
theorem uniform_index_inbounds_of_nonempty (numPages : ℕ) (sel : Finset ℕ)
    (deltaList : List Box) (i0 : ℤ)
    (hsub : sel ⊆ Finset.range numPages) (hne : sel.Nonempty) :
    (0 ≤ (clampOrderStat i0 sel.card).2 ∧
     (clampOrderStat i0 sel.card).2 ≤ (sel.card : ℤ) - 1 ∧
     (∀ f : Box → ℚ,
       ((clampOrderStat i0 sel.card).2).toNat <
         (sortList ((cropDeltaListOf deltaList numPages sel).map f)).length)) ∧
    (oddSelOf {0} = (∅ : Finset ℕ) ∧
     cropDeltaListOf deltaList 1 (∅ : Finset ℕ) = [] ∧
     ¬(((clampOrderStat 0 (∅ : Finset ℕ).card).2).toNat <
        (sortList (([] : List Box).map Box.left)).length)) := by
  have hcard : 0 < sel.card := Finset.card_pos.mpr hne
  obtain ⟨ha, hb⟩ := clampOrderStat_mem i0 sel.card hcard
  have hlen : ∀ f : Box → ℚ,
      (sortList ((cropDeltaListOf deltaList numPages sel).map f)).length = sel.card := by
    intro f
    rw [length_sortList, List.length_map]
    unfold cropDeltaListOf
    rw [List.length_map]
    exact length_filter_range_mem sel numPages hsub
  refine ⟨⟨ha, by omega, ?_⟩, ?_, ?_, ?_⟩
  · intro f
    rw [hlen f]
    omega
  · decide
  · unfold cropDeltaListOf
    simp
  · decide

/-- C10 witness: for the two-page selection of a two-page document and
requested order statistic 5, the clamped index accesses the sorted left
delta list in bounds. -/
theorem uniform_index_inbounds_witness :
    ((clampOrderStat 5 (Finset.card ({0, 1} : Finset ℕ))).2).toNat <
      (sortList ((cropDeltaListOf [boxZero, boxZero] 2 ({0, 1} : Finset ℕ)).map
        Box.left)).length :=
  (uniform_index_inbounds_of_nonempty 2 {0, 1} [boxZero, boxZero] 5 (by decide)
    ⟨0, by decide⟩).1.2.2 Box.left

/-- C9: when exactly one page is selected, uniform mode gives that page
the same crop box as baseline mode (no grouping) does: the four sorted
one-element delta lists give back the page's own delta. -/
theorem uniform_singleton_eq_baseline (args : Args) (fullL bbL : List Box) (j : ℕ)
    (hSPS : args.samePageSize = false) (hEO : args.evenodd = false)
    (hStat : args.uniformOrderStat = none) (hPct : args.uniformOrderPercent = none)
    (hlen : fullL.length = bbL.length) (hj : j < bbL.length) :
    (calculateCropList { args with uniform := true } fullL bbL {j}).2.getD j boxZero =
      (calculateCropList { args with uniform := false } fullL bbL {j}).2.getD j boxZero := by
  rw [calculateCropList_eq_base _ _ _ _
      (show ({ args with uniform := true } : Args).evenodd = false from hEO)]
  rw [calculateCropList_eq_base _ _ _ _
      (show ({ args with uniform := false } : Args).evenodd = false from hEO)]
  rw [calculateCropListBase_snd_uniform_singleton { args with uniform := true } fullL bbL j
      hSPS rfl hStat hPct hj]
  rw [calculateCropListBase_snd_plain { args with uniform := false } fullL bbL {j}
      hSPS rfl hStat hPct]
  unfold applyDeltas
  rw [getD_zipWith_lt _ fullL _ j boxZero boxZero boxZero (by omega)
      (by simp only [List.length_replicate]; omega)]
  rw [getD_replicate_lt _ boxZero bbL.length j hj]
  rw [getD_zipWith_lt _ fullL _ j boxZero boxZero boxZero (by omega)
      (by simp only [List.length_zipWith]; omega)]

/-- C9 witness: a concrete one-page instance of the uniform/baseline
agreement. -/
theorem uniform_singleton_witness :
    (calculateCropList { argsNone with uniform := true } [(⟨0, 0, 100, 200⟩ : Box)]
      [(⟨10, 10, 90, 190⟩ : Box)] {0}).2.getD 0 boxZero =
    (calculateCropList { argsNone with uniform := false } [(⟨0, 0, 100, 200⟩ : Box)]
      [(⟨10, 10, 90, 190⟩ : Box)] {0}).2.getD 0 boxZero :=
  uniform_singleton_eq_baseline argsNone [⟨0, 0, 100, 200⟩] [⟨10, 10, 90, 190⟩] 0
    rfl rfl rfl rfl rfl (by decide)

theorem getD_evenOddCombine (n : ℕ) (e o : List Box) (i : ℕ) (h : i < n) :
    (evenOddCombine n e o).getD i boxZero =
      if i % 2 = 0 then e.getD i boxZero else o.getD i boxZero := by
  unfold evenOddCombine
  rw [getD_map_lt _ _ i boxZero 0 (by simpa using h), getD_range_lt n i 0 h]

theorem getD_uniformBTNormalize (l : List Box) (i : ℕ) (h : i < l.length) :
    (uniformBTNormalize l).getD i boxZero =
      ⟨(l.getD i boxZero).left, listMin (l.map Box.bottom),
       (l.getD i boxZero).right, listMax (l.map Box.top)⟩ := by
  unfold uniformBTNormalize
  rw [getD_map_lt _ l i boxZero boxZero h]

theorem length_eoCombinedOf (args : Args) (fullL bbL : List Box) (sel : Finset ℕ) :
    (eoCombinedOf args fullL bbL sel).length = bbL.length := by
  simp [eoCombinedOf, evenOddCombine]

/-- C5: with `--evenodd` set, the final crop list is the interleaved
even/odd result, normalized across the two groups exactly when
`--uniform` was also requested: then every page keeps its per-group left
and right values but receives the minimum bottom and the maximum top over
the whole combined list (which are lower and upper bounds for every
combined entry); with `--evenodd` alone no such normalization happens. -/
theorem evenodd_uniform_crossgroup_normalization (args : Args) (fullL bbL : List Box)
    (sel : Finset ℕ) (hEO : args.evenodd = true) :
    ((calculateCropList args fullL bbL sel).2 =
      if args.uniform = true then uniformBTNormalize (eoCombinedOf args fullL bbL sel)
      else eoCombinedOf args fullL bbL sel) ∧
    (args.uniform = true → ∀ i, i < bbL.length →
      (calculateCropList args fullL bbL sel).2.getD i boxZero =
        ⟨((eoCombinedOf args fullL bbL sel).getD i boxZero).left,
         listMin ((eoCombinedOf args fullL bbL sel).map Box.bottom),
         ((eoCombinedOf args fullL bbL sel).getD i boxZero).right,
         listMax ((eoCombinedOf args fullL bbL sel).map Box.top)⟩) ∧
    (∀ bx ∈ eoCombinedOf args fullL bbL sel,
      listMin ((eoCombinedOf args fullL bbL sel).map Box.bottom) ≤ bx.bottom ∧
      bx.top ≤ listMax ((eoCombinedOf args fullL bbL sel).map Box.top)) := by
  have hmain : (calculateCropList args fullL bbL sel).2 =
      if args.uniform = true then uniformBTNormalize (eoCombinedOf args fullL bbL sel)
      else eoCombinedOf args fullL bbL sel := by
    rw [calculateCropList_evenodd _ _ _ _ hEO]
    dsimp only
    unfold eoCombinedOf
    split <;> rfl
  refine ⟨hmain, ?_, ?_⟩
  · intro hU i hi
    rw [hmain, if_pos hU]
    exact getD_uniformBTNormalize (eoCombinedOf args fullL bbL sel) i
      (by rw [length_eoCombinedOf]; exact hi)
  · intro bx hbx
    exact ⟨listMin_le _ _ (List.mem_map_of_mem Box.bottom hbx),
      le_listMax _ _ (List.mem_map_of_mem Box.top hbx)⟩

/-- C5 witness: a concrete two-page even/odd + uniform run equals the
normalized combined list. -/
theorem evenodd_uniform_witness :
    (calculateCropList argsEOU full2 bb2 {0, 1}).2 =
      if argsEOU.uniform = true then
        uniformBTNormalize (eoCombinedOf argsEOU full2 bb2 {0, 1})
      else eoCombinedOf argsEOU full2 bb2 {0, 1} :=
  (evenodd_uniform_crossgroup_normalization argsEOU full2 bb2 {0, 1} rfl).1

/-- C6: the even/odd split partitions the selection into disjoint even
and odd subsets whose union is the selection, the output list has exactly
one entry per bounding box, the recombined list takes entry i from the
even recursive call when i is even and from the odd recursive call
otherwise - both recursive calls running with even/odd disabled and
uniform forced on (`eoArgs`), the odd call with the `args` state left by
the even call - and with `--evenodd` alone the recombined list is the
final output. -/
theorem evenodd_partition_recombination (args : Args) (fullL bbL : List Box)
    (sel : Finset ℕ) (hEO : args.evenodd = true) :
    Disjoint (evenSelOf sel) (oddSelOf sel) ∧
    evenSelOf sel ∪ oddSelOf sel = sel ∧
    (calculateCropList args fullL bbL sel).2.length = bbL.length ∧
    (∀ i, i < bbL.length →
      (eoCombinedOf args fullL bbL sel).getD i boxZero =
        if i % 2 = 0 then
          (calculateCropList (eoArgs args)
            (samePageStep args.samePageSize bbL.length fullL) bbL
            (evenSelOf sel)).2.getD i boxZero
        else
          (calculateCropList
            ((calculateCropList (eoArgs args)
              (samePageStep args.samePageSize bbL.length fullL) bbL
              (evenSelOf sel)).1)
            (samePageStep args.samePageSize bbL.length fullL) bbL
            (oddSelOf sel)).2.getD i boxZero) ∧
    (args.uniform = false →
      (calculateCropList args fullL bbL sel).2 = eoCombinedOf args fullL bbL sel) := by
  refine ⟨?_, ?_, ?_, ?_, ?_⟩
  · rw [Finset.disjoint_left]
    intro a ha hb
    rw [evenSelOf, Finset.mem_filter] at ha
    rw [oddSelOf, Finset.mem_filter] at hb
    exact hb.2 ha.2
  · ext a
    simp only [evenSelOf, oddSelOf, Finset.mem_union, Finset.mem_filter]
    tauto
  · rw [calculateCropList_evenodd _ _ _ _ hEO]
    dsimp only
    split
    · simp [uniformBTNormalize, evenOddCombine]
    · simp [evenOddCombine]
  · intro i hi
    rw [calculateCropList_eq_base (eoArgs args) _ _ _ rfl]
    rw [calculateCropList_eq_base _ _ _ _
      (by rw [calculateCropListBase_fst_evenodd]; rfl : ((calculateCropListBase (eoArgs args)
        (samePageStep args.samePageSize bbL.length fullL) bbL
        (evenSelOf sel)).1).evenodd = false)]
    unfold eoCombinedOf
    rw [getD_evenOddCombine bbL.length _ _ i hi]
  · intro hU
    rw [calculateCropList_evenodd _ _ _ _ hEO]
    dsimp only
    rw [if_neg (by simp [hU])]
    unfold eoCombinedOf
    rfl

/-- C6 witness: partition, union and output length for a concrete
two-page selection. -/
theorem evenodd_partition_witness :
    Disjoint (evenSelOf {0, 1}) (oddSelOf {0, 1}) ∧
    evenSelOf {0, 1} ∪ oddSelOf {0, 1} = ({0, 1} : Finset ℕ) ∧
    (calculateCropList argsEO full2 bb2 {0, 1}).2.length = bb2.length :=
  ⟨(evenodd_partition_recombination argsEO full2 bb2 {0, 1} rfl).1,
   (evenodd_partition_recombination argsEO full2 bb2 {0, 1} rfl).2.1,
   (evenodd_partition_recombination argsEO full2 bb2 {0, 1} rfl).2.2.1⟩

/-! ### Lemmas about the whole-document runs -/

theorem cropRun_pages_length (cargs : Args) (kinds : List BoxKind) (noundosave : Bool)
    (bts : List BoxKind) (doc : Doc) (bbL : List Box) (sel : Finset ℕ) :
    (cropRun cargs kinds noundosave bts doc bbL sel).pages.length = doc.pages.length := by
  simp [cropRun]

theorem cropRun_page (cargs : Args) (kinds : List BoxKind) (noundosave : Bool)
    (bts : List BoxKind) (doc : Doc) (bbL : List Box) (sel : Finset ℕ) (i : ℕ)
    (hi : i < doc.pages.length) :
    (cropRun cargs kinds noundosave bts doc bbL sel).pages.getD i pageDefault =
      applyCropPage noundosave (hasMarker doc.producer) bts sel
        ((calculateCropList cargs
          (doc.pages.map (fun p => (resolveFullBox kinds p).getD boxZero)) bbL sel).2)
        i (getFullPageBox kinds (doc.pages.getD i pageDefault)) := by
  unfold cropRun
  dsimp only
  rw [getD_map_lt _ (List.range doc.pages.length) i pageDefault 0 (by simpa using hi),
    getD_range_lt doc.pages.length i 0 hi]
  show applyCropPage noundosave (hasMarker doc.producer) bts sel _ i
    ((doc.pages.map (getFullPageBox kinds)).getD i pageDefault) = _
  rw [getD_map_lt (getFullPageBox kinds) doc.pages i pageDefault pageDefault hi]

theorem restoreRun_page (kinds : List BoxKind) (doc : Doc) (i : ℕ)
    (hi : i < doc.pages.length) :
    (restoreRun kinds doc).pages.getD i pageDefault =
      restorePage (getFullPageBox kinds (doc.pages.getD i pageDefault)) := by
  unfold restoreRun
  dsimp only
  rw [getD_map_lt _ (List.range doc.pages.length) i pageDefault 0 (by simpa using hi),
    getD_range_lt doc.pages.length i 0 hi]
  show restorePage ((doc.pages.map (getFullPageBox kinds)).getD i pageDefault) = _
  rw [getD_map_lt (getFullPageBox kinds) doc.pages i pageDefault pageDefault hi]

theorem applyCropPage_not_selected (noundosave already : Bool) (bts : List BoxKind)
    (sel : Finset ℕ) (cropList : List Box) (i : ℕ) (q : Page) (h : i ∉ sel) :
    (applyCropPage noundosave already bts sel cropList i q).mediaBox =
      q.originalMediaBox ∧
    (applyCropPage noundosave already bts sel cropList i q).cropBox =
      q.originalCropBox ∧
    (applyCropPage noundosave already bts sel cropList i q).trimBox = q.trimBox ∧
    (applyCropPage noundosave already bts sel cropList i q).bleedBox = q.bleedBox ∧
    (applyCropPage noundosave already bts sel cropList i q).artBox =
      (if noundosave = false ∧ already = false then intersectBoxes q.mediaBox q.cropBox
       else q.artBox) := by
  unfold applyCropPage
  dsimp only
  rw [if_neg h]
  split_ifs <;> exact ⟨rfl, rfl, rfl, rfl, rfl⟩

theorem applyCropPage_artBox (bts : List BoxKind) (sel : Finset ℕ)
    (cropList : List Box) (i : ℕ) (q : Page) (hbts : BoxKind.a ∉ bts) :
    (applyCropPage false false bts sel cropList i q).artBox =
      intersectBoxes q.mediaBox q.cropBox := by
  simp only [applyCropPage]
  by_cases hmem : i ∈ sel
  · rw [if_pos hmem]
    simp only [apply_ite (Page.artBox), ite_self]
    have ha : BoxKind.a ∉ (if bts = [] then [BoxKind.m, BoxKind.c] else bts) := by
      by_cases hnil : bts = []
      · rw [if_pos hnil]
        decide
      · rw [if_neg hnil]
        exact hbts
    rw [if_neg ha]
    simp
  · rw [if_neg hmem]
    simp only [apply_ite (Page.artBox)]
    simp

/-- C3 (amended): in crop mode a page outside the selection gets its
media and crop box restored to the pre-resolution originals and keeps its
trim and bleed box, but the undo stash into the ArtBox is performed for
every page, selected or not, whenever undo-save is enabled and the
document carries no prior marker: the page's ArtBox then holds the
resolved full-page box (the stash happens after media and crop were both
set to the full-page box, and restore mode later reads every page's
ArtBox). -/
theorem unselected_page_passthrough (cargs : Args) (kinds : List BoxKind)
    (noundosave : Bool) (bts : List BoxKind) (doc : Doc) (bbL : List Box)
    (sel : Finset ℕ) (i : ℕ) (hi : i < doc.pages.length) (hns : i ∉ sel) :
    ((cropRun cargs kinds noundosave bts doc bbL sel).pages.getD i pageDefault).mediaBox =
      (doc.pages.getD i pageDefault).mediaBox ∧
    ((cropRun cargs kinds noundosave bts doc bbL sel).pages.getD i pageDefault).cropBox =
      (doc.pages.getD i pageDefault).cropBox ∧
    ((cropRun cargs kinds noundosave bts doc bbL sel).pages.getD i pageDefault).trimBox =
      (doc.pages.getD i pageDefault).trimBox ∧
    ((cropRun cargs kinds noundosave bts doc bbL sel).pages.getD i pageDefault).bleedBox =
      (doc.pages.getD i pageDefault).bleedBox ∧
    ((cropRun cargs kinds noundosave bts doc bbL sel).pages.getD i pageDefault).artBox =
      (if noundosave = false ∧ hasMarker doc.producer = false then
        resolveFullBox kinds (doc.pages.getD i pageDefault)
      else (doc.pages.getD i pageDefault).artBox) := by
  rw [cropRun_page cargs kinds noundosave bts doc bbL sel i hi]
  obtain ⟨e1, e2, e3, e4, e5⟩ := applyCropPage_not_selected noundosave
    (hasMarker doc.producer) bts sel
    ((calculateCropList cargs
      (doc.pages.map (fun p => (resolveFullBox kinds p).getD boxZero)) bbL sel).2) i
    (getFullPageBox kinds (doc.pages.getD i pageDefault)) hns
  refine ⟨e1, e2, e3, e4, ?_⟩
  rw [e5]
  by_cases hcond : noundosave = false ∧ hasMarker doc.producer = false
  · rw [if_pos hcond, if_pos hcond]
    show intersectBoxes (resolveFullBox kinds (doc.pages.getD i pageDefault))
      (resolveFullBox kinds (doc.pages.getD i pageDefault)) = _
    rw [intersectBoxes_self]
  · rw [if_neg hcond, if_neg hcond]
    rfl

/-- C3 witness: on a one-page document with nothing selected, the media
box of the output page equals the original media box. -/
theorem unselected_page_passthrough_witness :
    ((cropRun argsNone [BoxKind.m, BoxKind.c] false [] docA bbA
      (∅ : Finset ℕ)).pages.getD 0 pageDefault).mediaBox =
      (docA.pages.getD 0 pageDefault).mediaBox :=
  (unselected_page_passthrough argsNone [BoxKind.m, BoxKind.c] false [] docA bbA ∅ 0
    (by decide) (by decide)).1

/-- C3 counterexample: page 0 of `docA` is not selected (the selection is
empty) and undo-save is enabled with no prior marker, yet its ArtBox is
overwritten by the stash (it becomes the resolved full-page box
(10,10,90,190) instead of keeping its original value (1,2,3,4)), so the
claim that the backup-box stash happens only for selected pages is false. -/
theorem artBox_stashed_on_unselected_page :
    ((cropRun argsNone [BoxKind.m, BoxKind.c] false [] docA bbA
      (∅ : Finset ℕ)).pages.getD 0 pageDefault).artBox = some ⟨10, 10, 90, 190⟩ ∧
    ((cropRun argsNone [BoxKind.m, BoxKind.c] false [] docA bbA
      (∅ : Finset ℕ)).pages.getD 0 pageDefault).artBox ≠
      (docA.pages.getD 0 pageDefault).artBox := by
  refine ⟨by decide, by decide⟩

/-- C1 (amended): cropping with undo-save enabled and no prior marker and
then running restore mode sets every page's media and crop box to the
full-page box resolved during the crop run - for the default media+crop
sources, the intersection of the page's pre-resolution media and crop
boxes - not to the two original boxes themselves; both originals are
reproduced exactly in the case that they coincide. -/
theorem restore_after_crop_gives_resolved_fullbox (cargs : Args) (bts : List BoxKind)
    (doc : Doc) (bbL : List Box) (sel : Finset ℕ) (i : ℕ)
    (hM : hasMarker doc.producer = false)
    (hbts : BoxKind.a ∉ bts)
    (hi : i < doc.pages.length)
    (hvalid : ∀ p ∈ doc.pages, p.mediaBox.isSome ∧ p.cropBox.isSome)
    (hlen : bbL.length = doc.pages.length)
    (hsel : ∀ n ∈ sel, n < doc.pages.length) :
    ((restoreRun [BoxKind.m, BoxKind.c]
        (cropRun cargs [BoxKind.m, BoxKind.c] false bts doc bbL sel)).pages.getD i
      pageDefault).mediaBox =
        resolveFullBox [BoxKind.m, BoxKind.c] (doc.pages.getD i pageDefault) ∧
    ((restoreRun [BoxKind.m, BoxKind.c]
        (cropRun cargs [BoxKind.m, BoxKind.c] false bts doc bbL sel)).pages.getD i
      pageDefault).cropBox =
        resolveFullBox [BoxKind.m, BoxKind.c] (doc.pages.getD i pageDefault) ∧
    ((doc.pages.getD i pageDefault).mediaBox = (doc.pages.getD i pageDefault).cropBox →
      ((restoreRun [BoxKind.m, BoxKind.c]
          (cropRun cargs [BoxKind.m, BoxKind.c] false bts doc bbL sel)).pages.getD i
        pageDefault).mediaBox = (doc.pages.getD i pageDefault).mediaBox) := by
  have hDlen : (cropRun cargs [BoxKind.m, BoxKind.c] false bts doc bbL sel).pages.length =
      doc.pages.length :=
    cropRun_pages_length cargs [BoxKind.m, BoxKind.c] false bts doc bbL sel
  rw [restoreRun_page [BoxKind.m, BoxKind.c]
    (cropRun cargs [BoxKind.m, BoxKind.c] false bts doc bbL sel) i (by omega)]
  have hmed : ∀ q : Page,
      (restorePage (getFullPageBox [BoxKind.m, BoxKind.c] q)).mediaBox = q.artBox :=
    fun q => rfl
  have hcrp : ∀ q : Page,
      (restorePage (getFullPageBox [BoxKind.m, BoxKind.c] q)).cropBox = q.artBox :=
    fun q => rfl
  rw [hmed, hcrp]
  rw [cropRun_page cargs [BoxKind.m, BoxKind.c] false bts doc bbL sel i hi, hM]
  have hart := applyCropPage_artBox bts sel
    ((calculateCropList cargs
      (doc.pages.map (fun p => (resolveFullBox [BoxKind.m, BoxKind.c] p).getD boxZero))
      bbL sel).2) i
    (getFullPageBox [BoxKind.m, BoxKind.c] (doc.pages.getD i pageDefault)) hbts
  rw [hart]
  have hkey : intersectBoxes
      (getFullPageBox [BoxKind.m, BoxKind.c] (doc.pages.getD i pageDefault)).mediaBox
      (getFullPageBox [BoxKind.m, BoxKind.c] (doc.pages.getD i pageDefault)).cropBox =
      resolveFullBox [BoxKind.m, BoxKind.c] (doc.pages.getD i pageDefault) := by
    show intersectBoxes
      (resolveFullBox [BoxKind.m, BoxKind.c] (doc.pages.getD i pageDefault))
      (resolveFullBox [BoxKind.m, BoxKind.c] (doc.pages.getD i pageDefault)) = _
    rw [intersectBoxes_self]
  rw [hkey]
  refine ⟨rfl, rfl, ?_⟩
  intro hmc
  show intersectBoxes (doc.pages.getD i pageDefault).mediaBox
    (doc.pages.getD i pageDefault).cropBox = (doc.pages.getD i pageDefault).mediaBox
  rw [hmc, intersectBoxes_self]

/-- C1 witness: a concrete uncropped one-page document processed by crop
then restore ends with its media box equal to the resolved full-page box
(the intersection of the original media and crop boxes). -/
theorem restore_after_crop_witness :
    ((restoreRun [BoxKind.m, BoxKind.c]
        (cropRun argsNone [BoxKind.m, BoxKind.c] false [] docA bbA
          (∅ : Finset ℕ))).pages.getD 0 pageDefault).mediaBox =
      resolveFullBox [BoxKind.m, BoxKind.c] (docA.pages.getD 0 pageDefault) :=
  (restore_after_crop_gives_resolved_fullbox argsNone [] docA bbA ∅ 0 (by decide)
    (by decide) (by decide) (by decide) (by decide) (by decide)).1

/-- C1 counterexample: for `docA` (original media box (0,0,100,200), crop
box (10,10,90,190)), cropping page 0 with undo-save enabled and no prior
marker and then restoring yields media box (10,10,90,190) - the
intersection stashed in the ArtBox - which differs from the original
pre-resolution media box, so restore does not reproduce the original
media and crop box values as the claim states. -/
theorem restore_does_not_reproduce_original_mediaBox :
    ((restoreRun [BoxKind.m, BoxKind.c]
        (cropRun argsNone [BoxKind.m, BoxKind.c] false [] docA bbA {0})).pages.getD 0
      pageDefault).mediaBox ≠ (docA.pages.getD 0 pageDefault).mediaBox := by
  decide
